import Mathlib

/-!
Verification development for the telegram-sticker-search-bot repository.

The Rust sources (src/main.rs, src/model.rs, src/strings.rs) are shallowly
embedded below.  Database tables become lists of records; the SQL queries
issued through sea-orm become list filters, stable sorts and lookups; the
async handlers become pure functions from a database state (plus the request
data) to a reply and a new database state.  Machine integers (i32, i64)
become Int; timestamps become Int.

Conventions followed throughout:
  * Rust `sort_by_key` is a stable sort; it is modelled by the stable
    insertion sort `sortBy` below (the output of a stable sort is uniquely
    determined by the key and the input order, so any stable sort models it).
  * `ORDER BY popularity DESC` leaves the relative order of ties to the
    store; the model keeps table order for ties (one admissible
    linearization).
  * `itertools::dedup_by_with_count` (collapse consecutive runs, yielding
    the run length and the first element of the run) is `dedupByWithCount`.
  * sea-orm `Column::Tag.contains(q)` is SQL `LIKE` with the pattern wrapped in percent signs, i.e. substring
    containment, modelled by `strContains` (case-sensitive, matching the
    default collation of the store as the spec fixes).
  * Rust `str::split_whitespace` is `splitWhitespace` (split on whitespace,
    dropping empty pieces).
-/

/-- One row of the `sticker` table (src/model.rs, `sticker::Model`), the
Item of the spec.  `fileUniqueId` is the external unique key used by
main.rs (`Column::FileUniqueId`) for the insert-or-select dedup and lookups;
`fileId` is the opaque reference payload returned to the platform. -/
structure Sticker where
  id : Int
  fileUniqueId : String
  fileId : String
  setName : String
  popularity : Int
deriving Repr, DecidableEq

/-- One row of the `tagged_sticker` table (src/model.rs,
`tagged_sticker::Model`), the TagAssociation of the spec. -/
structure TaggedSticker where
  id : Int
  tag : String
  stickerId : Int
  taggerId : Int
  ts : Int
deriving Repr, DecidableEq

/-- One row of the `allowed_user` table (src/model.rs, `user::Model`), the
AuthorizedUser of the spec. -/
structure DbUser where
  id : Int
  userId : Int
  username : String
  allowed : Bool
deriving Repr, DecidableEq

/-- The persistent store: the three tables created at startup. -/
structure Db where
  stickers : List Sticker
  tagged : List TaggedSticker
  users : List DbUser
deriving Repr, DecidableEq

/-! ## String helpers -/

/-- The test `charsStartWith pat l`: the character list `l` starts with `pat`. -/
def charsStartWith : List Char → List Char → Bool
  | [], _ => true
  | _ :: _, [] => false
  | p :: ps, c :: cs => p == c && charsStartWith ps cs

/-- The test `charsContain pat l`: `pat` occurs as a contiguous sublist of `l`. -/
def charsContain (pat : List Char) : List Char → Bool
  | [] => charsStartWith pat []
  | c :: cs => charsStartWith pat (c :: cs) || charsContain pat cs

/-- The test `strContains s pat`: `pat` is a substring of `s` — the model of
the sea-orm `.contains` filter (SQL `LIKE` on the pattern). -/
def strContains (s pat : String) : Bool :=
  charsContain pat.data s.data

/-- Emit the word whose characters were accumulated in reverse, if any —
helper for `splitWhitespace`. -/
def flushWord (acc : List Char) : List String :=
  if acc.isEmpty then [] else [String.mk acc.reverse]

/-- Walks the characters, accumulating the current word in `acc`
(reversed); whitespace ends the current word. -/
def wordsAux (acc : List Char) : List Char → List String
  | [] => flushWord acc
  | c :: cs =>
    if c.isWhitespace then flushWord acc ++ wordsAux [] cs
    else wordsAux (c :: acc) cs

/-- Rust `str::split_whitespace`: split on runs of whitespace characters,
producing no empty pieces. -/
def splitWhitespace (s : String) : List String :=
  wordsAux [] s.data

/-- Rust `str::trim`: drop leading and trailing whitespace. -/
def strTrim (s : String) : String :=
  String.mk
    (((s.data.dropWhile Char.isWhitespace).reverse.dropWhile
        Char.isWhitespace).reverse)

/-! ## Stable sort (model of the stable Rust `sort_by_key`) -/

/-- Insert `a` into `l` before the first element `b` with `le a b`.
With `le a b = (key a ≤ key b)` (ascending) or `le a b = (key b ≤ key a)`
(descending) this yields a stable insertion sort. -/
def insertBy (le : α → α → Bool) (a : α) : List α → List α
  | [] => [a]
  | b :: l => if le a b then a :: b :: l else b :: insertBy le a l

/-- Stable insertion sort with comparator `le` ("may be placed before"). -/
def sortBy (le : α → α → Bool) : List α → List α
  | [] => []
  | a :: l => insertBy le a (sortBy le l)

/-! ## dedup_by_with_count (itertools) -/

/-- Worker: `cur` is the first element of the current run, `n` the number of
elements of the run seen so far. -/
def dedupGo (eq : α → α → Bool) (cur : α) (n : Nat) : List α → List (Nat × α)
  | [] => [(n, cur)]
  | b :: l =>
    if eq cur b then dedupGo eq cur (n + 1) l
    else (n, cur) :: dedupGo eq b 1 l

/-- Model of `itertools::dedup_by_with_count`: collapse consecutive runs of elements
equal under `eq`, yielding `(run length, first element of the run)`. -/
def dedupByWithCount (eq : α → α → Bool) : List α → List (Nat × α)
  | [] => []
  | a :: l => dedupGo eq a 1 l

/-! ## Search pipeline (src/main.rs, `inline_query_handler`) -/

/-- main.rs `QUERY_RESULT_MAX`. -/
def QUERY_RESULT_MAX : Nat := 50

/-- Model of `query_str.trim().split_whitespace()` (main.rs line 617). -/
def queryTokens (q : String) : List String :=
  splitWhitespace (strTrim q)

/-- The OR-of-contains condition built from the tokens
(main.rs lines 618–621): a row matches when its tag contains at least one
token as a substring.  `Condition::any()` over zero tokens matches nothing,
as does `List.any` over `[]`. -/
def rowMatches (tokens : List String) (r : TaggedSticker) : Bool :=
  tokens.any (fun t => strContains r.tag t)

/-- First db query (main.rs lines 624–627): all tag rows matching the
condition. -/
def matchingRows (db : Db) (q : String) : List TaggedSticker :=
  db.tagged.filter (rowMatches (queryTokens q))

/-- Model of `tagged_stickers.sort_by_key(|tagged| tagged.sticker_id)`
(main.rs line 630). -/
def sortedMatchingRows (db : Db) (q : String) : List TaggedSticker :=
  sortBy (fun a b => decide (a.stickerId ≤ b.stickerId)) (matchingRows db q)

/-- Applying `dedup_by_with_count` on the sorted rows, then
`(tagged.sticker_id, count)` (main.rs lines 631–635). -/
def stickerIdCountPairs (db : Db) (q : String) : List (Int × Nat) :=
  (dedupByWithCount (fun a b => a.stickerId == b.stickerId)
      (sortedMatchingRows db q)).map
    (fun p => (p.2.stickerId, p.1))

/-- The extracted id list (main.rs lines 638–642). -/
def stickerIds (db : Db) (q : String) : List Int :=
  (stickerIdCountPairs db q).map Prod.fst

/-- The `match_count_for_sticker_id` HashMap lookup (main.rs lines 645 and
658).  The pair list has pairwise-distinct keys (they come out of the
sorted dedup), so an association-list lookup models the HashMap built by
`collect`; indexing a missing key panics in Rust, here totalized with 0
(shown never to be used, see the C10 theorem). -/
def matchCountOf (db : Db) (q : String) (i : Int) : Nat :=
  ((stickerIdCountPairs db q).lookup i).getD 0

/-- Second db query (main.rs lines 648–652): stickers whose id is in the
id set, ordered by popularity descending (ties: table order). -/
def secondQueryStickers (db : Db) (q : String) : List Sticker :=
  sortBy (fun a b => decide (b.popularity ≤ a.popularity))
    (db.stickers.filter (fun s => (stickerIds db q).contains s.id))

/-- The `(sticker.id, sticker.file_id)` pairs, stably sorted by
`Reverse(match_count)` (main.rs lines 653–658). -/
def stickerFileIdPairs (db : Db) (q : String) : List (Int × String) :=
  sortBy (fun a b => decide (matchCountOf db q b.1 ≤ matchCountOf db q a.1))
    ((secondQueryStickers db q).map (fun s => (s.id, s.fileId)))

/-- The emitted `(result id, file id)` sequence after truncation
(main.rs lines 661–670). -/
def searchResults (db : Db) (q : String) : List (Int × String) :=
  (stickerFileIdPairs db q).take QUERY_RESULT_MAX

/-- The whole `inline_query_handler` read path: `none` models the early
return on an all-whitespace query (main.rs lines 607–609, no answer sent),
`some rs` models answering with `rs`. -/
def inlineQueryHandler (db : Db) (q : String) : Option (List (Int × String)) :=
  if strTrim q = "" then none else some (searchResults db q)

/-- The sticker-level view of the final sort: the same stable sort by
match count applied to the stickers themselves (before the projection to
`(id, file_id)`).  `stickerFileIdPairs` is its image under the projection
(proved below), which lets ordering statements speak about popularity. -/
def rankedStickers (db : Db) (q : String) : List Sticker :=
  sortBy (fun a b => decide (matchCountOf db q b.id ≤ matchCountOf db q a.id))
    (secondQueryStickers db q)

/-! ## Store error classification (for the insert-or-select dedup) -/

/-- Classification of a failed sea-orm insert: a uniqueness violation on the
unique column, or any other store error.  main.rs matches `Err(_)`, so the
embedding keeps the class abstract and lets theorems quantify over it. -/
inductive InsertErr
  | uniqueViolation
  | other
deriving Repr, DecidableEq

/-- An opaque store error from a query (sea_orm::DbErr). -/
inductive DbErr
  | fail
deriving Repr, DecidableEq

/-- The errors the resolution step can produce: a propagated store error
(`BotError::Database`, via the `?` on the fallback select) or
`BotError::NoSuchSticker` when the fallback select finds nothing. -/
inductive ResolveErr
  | database (e : DbErr)
  | noSuchSticker
deriving Repr, DecidableEq

/-- The item-resolution step of `handle_tag_command` (main.rs lines
251–271), parametric in what the store returned for the insert and for the
fallback select: on `Ok` the inserted id is used; on `Err(_)` — any insert
error — the fallback select runs; its store error propagates via `?`; an
empty select result becomes `NoSuchSticker`; a found row yields its id. -/
def resolveStickerId (insertRes : Except InsertErr Int)
    (lookupRes : Except DbErr (Option Sticker)) : Except ResolveErr Int :=
  match insertRes with
  | .ok lastInsertId => .ok lastInsertId
  | .error _ =>
    match lookupRes with
    | .error e => .error (.database e)
    | .ok none => .error .noSuchSticker
    | .ok (some s) => .ok s.id

/-! ## Command handlers -/

/-- A fresh autoincrement primary key for a table with the given ids. -/
def nextId (ids : List Int) : Int :=
  ids.foldr max 0 + 1

/-- The sticker carried by the replied-to message: file ids and the
optional sticker-set name. -/
structure StickerMsg where
  fileId : String
  fileUniqueId : String
  setName : Option String
deriving Repr, DecidableEq

/-- Replies of `handle_tag_command` (src/strings.rs messages). -/
inductive TagReply
  | noReplySticker
  | senderUnknown
  | notAuthorized
  | noStickerSet
  | noTags
  | taggedOk (tags : List String)
deriving Repr, DecidableEq

/-- Model of `handle_tag_command` (main.rs lines 151–305).  `reply` is `none` when
the command does not reply to a message, `some none` when the replied-to
message carries no sticker, and `some (some st)` otherwise; `sender` is the
platform user id of the command sender; `now` is the timestamp used for the new
tag rows.  The store is modelled on its happy path: the sticker insert
fails exactly on a uniqueness conflict, i.e. when a row with the same
`file_unique_id` already exists, in which case the fallback select finds
that row (main.rs lines 262–271). -/
def handleTag (db : Db) (reply : Option (Option StickerMsg))
    (sender : Option Int) (text : String) (now : Int) : TagReply × Db :=
  match reply with
  | none => (.noReplySticker, db)
  | some stickerOfReply =>
    match sender with
    | none => (.senderUnknown, db)
    | some uid =>
      match db.users.find? (fun u => u.userId == uid) with
      | none => (.notAuthorized, db)
      | some dbUser =>
        if dbUser.allowed = false then (.notAuthorized, db)
        else
          match stickerOfReply with
          | none => (.noReplySticker, db)
          | some st =>
            match st.setName with
            | none => (.noStickerSet, db)
            | some setName =>
              let tags := splitWhitespace (strTrim text)
              if tags.isEmpty then (.noTags, db)
              else
                let (stickerId, db1) : Int × Db :=
                  match db.stickers.find?
                      (fun s => s.fileUniqueId == st.fileUniqueId) with
                  | some s => (s.id, db)
                  | none =>
                    let sid := nextId (db.stickers.map (fun s => s.id))
                    (sid, { db with stickers := db.stickers ++
                        [{ id := sid, fileUniqueId := st.fileUniqueId,
                           fileId := st.fileId, setName := setName,
                           popularity := 0 }] })
                let baseId := nextId (db1.tagged.map (fun r => r.id))
                let newRows := tags.enum.map (fun p =>
                  { id := baseId + p.1, tag := p.2, stickerId := stickerId,
                    taggerId := dbUser.id, ts := now : TaggedSticker })
                (.taggedOk tags, { db1 with tagged := db1.tagged ++ newRows })

/-- Replies of `handle_untag_command`. -/
inductive UntagReply
  | noReplySticker
  | senderUnknown
  | notAuthorized
  | stickerUntagged
  | untagSuccess (rowsAffected : Nat)
deriving Repr, DecidableEq

/-- Model of `handle_untag_command` (main.rs lines 307–415): same sender and
authorization checks as tagging; the target sticker is looked up by
`file_unique_id` (an unindexed sticker gets the STICKER_UNTAGGED reply and
nothing changes); then `delete_many` removes every tag row matching
`(sticker_id, tag ∈ untags, tagger_id = registry row id of the caller)` and the reply
reports the number of rows affected. -/
def handleUntag (db : Db) (reply : Option (Option StickerMsg))
    (sender : Option Int) (text : String) : UntagReply × Db :=
  match reply with
  | none => (.noReplySticker, db)
  | some stickerOfReply =>
    match sender with
    | none => (.senderUnknown, db)
    | some uid =>
      match db.users.find? (fun u => u.userId == uid) with
      | none => (.notAuthorized, db)
      | some dbUser =>
        if dbUser.allowed = false then (.notAuthorized, db)
        else
          match stickerOfReply with
          | none => (.noReplySticker, db)
          | some st =>
            let untags := splitWhitespace (strTrim text)
            match db.stickers.find?
                (fun s => s.fileUniqueId == st.fileUniqueId) with
            | none => (.stickerUntagged, db)
            | some sticker =>
              let hit := fun (r : TaggedSticker) =>
                r.stickerId == sticker.id && untags.contains r.tag &&
                  r.taggerId == dbUser.id
              (.untagSuccess (db.tagged.countP hit),
               { db with tagged := db.tagged.filter (fun r => !(hit r)) })

/-- Replies of `handle_register_command`. -/
inductive RegisterReply
  | senderUnknown
  | usernameMissing
  | needApproval
deriving Repr, DecidableEq

/-- Model of `handle_register_command` (main.rs lines 492–531): the sender must be
known and must have a username; then a user row `(username, user_id,
allowed = false)` is inserted.  The result of the insert is propagated with `?`:
when a row with the same `user_id` already exists (the unique column), the
insert fails and the handler returns the error — no reply is sent and the
table is unchanged. -/
def handleRegister (db : Db) (sender : Option (Int × Option String)) :
    Except InsertErr RegisterReply × Db :=
  match sender with
  | none => (.ok .senderUnknown, db)
  | some (uid, uname) =>
    match uname with
    | none => (.ok .usernameMissing, db)
    | some username =>
      if db.users.any (fun u => u.userId == uid) then
        (.error .uniqueViolation, db)
      else
        (.ok .needApproval,
         { db with users := db.users ++
            [{ id := nextId (db.users.map (fun u => u.id)), userId := uid,
               username := username, allowed := false }] })

/-- Replies of `handle_allow_command` (the approve operation). -/
inductive AllowReply
  | wrongArgnum
  | noPerm
  | notRegistered
  | updated (u : DbUser)
deriving Repr, DecidableEq

/-- Model of `handle_allow_command` (main.rs lines 533–585): the argument text must
split into exactly `[secret, username]`; the secret is compared with the
process-wide secret by exact string equality before anything else touches
the user table; on mismatch the NO_PERM reply is sent and the handler
returns; otherwise the user is looked up by username (NOT_REGISTERED when
absent) and its `allowed` flag is set to true, echoing the updated row. -/
def handleAllow (db : Db) (storeSecret : String) (text : String) :
    AllowReply × Db :=
  match splitWhitespace (strTrim text) with
  | [secret, username] =>
    if secret ≠ storeSecret then (.noPerm, db)
    else
      match db.users.find? (fun u => u.username == username) with
      | none => (.notRegistered, db)
      | some u =>
        (.updated { u with allowed := true },
         { db with users := db.users.map (fun v =>
            if v.id == u.id then { v with allowed := true } else v) })
  | _ => (.wrongArgnum, db)

/-- Outcome of `chosen_inline_result_handler`: either the popularity update
ran, or the sticker id was unknown and only a warning was logged — the
handler returns `Ok(())` in both cases, so there is no error outcome. -/
inductive ChosenOutcome
  | incremented
  | notFoundLogged
deriving Repr, DecidableEq

/-- Model of `chosen_inline_result_handler` (main.rs lines 102–127) after parsing
the result id: look the sticker up by id; when found, write back the same
row with `popularity` set to the popularity of the found row plus one (an update
by primary key); when not found, log a warning and change nothing. -/
def recordSelection (db : Db) (stickerId : Int) : ChosenOutcome × Db :=
  match db.stickers.find? (fun s => s.id == stickerId) with
  | some s =>
    (.incremented,
     { db with stickers := db.stickers.map (fun t =>
        if t.id == stickerId then { t with popularity := s.popularity + 1 }
        else t) })
  | none => (.notFoundLogged, db)

/-! ## Permutation and ordering lemmas for the stable sort -/

theorem insertBy_perm (le : α → α → Bool) (a : α) (l : List α) :
    (insertBy le a l).Perm (a :: l) := by
  induction l with
  | nil => exact List.Perm.refl _
  | cons b t ih =>
    by_cases h : le a b
    · simp [insertBy, h]
    · simp only [insertBy, h, if_false, Bool.false_eq_true]
      exact (ih.cons b).trans (List.Perm.swap a b t)

theorem sortBy_perm (le : α → α → Bool) (l : List α) :
    (sortBy le l).Perm l := by
  induction l with
  | nil => exact List.Perm.refl _
  | cons a t ih => exact (insertBy_perm le a (sortBy le t)).trans (ih.cons a)

theorem mem_sortBy {le : α → α → Bool} {l : List α} {x : α} :
    x ∈ sortBy le l ↔ x ∈ l :=
  (sortBy_perm le l).mem_iff

theorem pairwise_true (l : List α) : l.Pairwise (fun _ _ => True) := by
  induction l with
  | nil => exact List.Pairwise.nil
  | cons a t ih => exact List.Pairwise.cons (fun _ _ => trivial) ih

/-- Inserting into a list sorted ascending by `k` keeps it sorted. -/
theorem pairwise_insertBy_asc {β : Type} [LinearOrder β] (k : α → β) (a : α)
    (l : List α) (h : l.Pairwise (fun x y => k x ≤ k y)) :
    (insertBy (fun x y => decide (k x ≤ k y)) a l).Pairwise
      (fun x y => k x ≤ k y) := by
  induction l with
  | nil => simp [insertBy]
  | cons b t ih =>
    rcases List.pairwise_cons.mp h with ⟨hb, ht⟩
    by_cases hab : k a ≤ k b
    · simp only [insertBy, decide_eq_true hab, if_true]
      refine List.pairwise_cons.mpr ⟨?_, h⟩
      intro y hy
      rcases List.mem_cons.mp hy with rfl | hyt
      · exact hab
      · exact le_trans hab (hb y hyt)
    · have hba : k b ≤ k a := le_of_lt (lt_of_not_le hab)
      simp only [insertBy, decide_eq_false hab, if_false, Bool.false_eq_true]
      refine List.pairwise_cons.mpr ⟨?_, ih ht⟩
      intro y hy
      rcases List.mem_cons.mp ((insertBy_perm _ a t).mem_iff.mp hy) with
        rfl | hyt
      · exact hba
      · exact hb y hyt

/-- The ascending stable sort by `k` produces a list sorted by `k`. -/
theorem pairwise_sortBy_asc {β : Type} [LinearOrder β] (k : α → β)
    (l : List α) :
    (sortBy (fun x y => decide (k x ≤ k y)) l).Pairwise
      (fun x y => k x ≤ k y) := by
  induction l with
  | nil => exact List.Pairwise.nil
  | cons a t ih => exact pairwise_insertBy_asc k a _ ih

/-- Stability of the descending insertion: inserting an element that stood
before every element of `l` (witnessed by `R`) into a list that is already
ordered by "key descending, then `R`" keeps that order. -/
theorem pairwise_insertBy_desc {β : Type} [LinearOrder β] (k : α → β)
    (R : α → α → Prop) (a : α) (l : List α)
    (hl : l.Pairwise (fun x y => k y < k x ∨ (k x = k y ∧ R x y)))
    (ha : ∀ b ∈ l, R a b) :
    (insertBy (fun x y => decide (k y ≤ k x)) a l).Pairwise
      (fun x y => k y < k x ∨ (k x = k y ∧ R x y)) := by
  induction l with
  | nil => simp [insertBy]
  | cons b t ih =>
    rcases List.pairwise_cons.mp hl with ⟨hb, ht⟩
    by_cases hab : k b ≤ k a
    · simp only [insertBy, decide_eq_true hab, if_true]
      refine List.pairwise_cons.mpr ⟨?_, hl⟩
      intro y hy
      rcases List.mem_cons.mp hy with rfl | hyt
      · rcases lt_or_eq_of_le hab with hlt | heq
        · exact Or.inl hlt
        · exact Or.inr ⟨heq.symm, ha _ (List.mem_cons_self _ _)⟩
      · have hyb : k y ≤ k b := by
          rcases hb y hyt with hlt | ⟨heq, _⟩
          · exact le_of_lt hlt
          · exact le_of_eq heq.symm
        rcases lt_or_eq_of_le (le_trans hyb hab) with hlt | heq
        · exact Or.inl hlt
        · exact Or.inr ⟨heq.symm, ha y (List.mem_cons_of_mem b hyt)⟩
    · have hba : k a < k b := lt_of_not_le hab
      simp only [insertBy, decide_eq_false hab, if_false, Bool.false_eq_true]
      refine List.pairwise_cons.mpr
        ⟨?_, ih ht (fun y hy => ha y (List.mem_cons_of_mem b hy))⟩
      intro y hy
      rcases List.mem_cons.mp ((insertBy_perm _ a t).mem_iff.mp hy) with
        rfl | hyt
      · exact Or.inl hba
      · exact hb y hyt

/-- The stable descending sort by key `k` of a list whose original order is
described by `R` (pairwise) is ordered by "key descending, then `R`": ties
in the key keep the original relative order. -/
theorem pairwise_sortBy_desc {β : Type} [LinearOrder β] (k : α → β)
    (R : α → α → Prop) (l : List α) (h : l.Pairwise R) :
    (sortBy (fun x y => decide (k y ≤ k x)) l).Pairwise
      (fun x y => k y < k x ∨ (k x = k y ∧ R x y)) := by
  induction l with
  | nil => exact List.Pairwise.nil
  | cons a t ih =>
    rcases List.pairwise_cons.mp h with ⟨hac, ht⟩
    exact pairwise_insertBy_desc k R a _ (ih ht)
      (fun b hb => hac b (mem_sortBy.mp hb))

/-- Sorting commutes with mapping when the comparator only looks at the
image. -/
theorem insertBy_map (le : α → α → Bool) (le2 : γ → γ → Bool) (f : α → γ)
    (hc : ∀ x y, le2 (f x) (f y) = le x y) (a : α) (l : List α) :
    insertBy le2 (f a) (l.map f) = (insertBy le a l).map f := by
  induction l with
  | nil => rfl
  | cons b t ih =>
    simp only [List.map_cons, insertBy, hc]
    by_cases h : le a b
    · simp [h]
    · simp [h, ih]

theorem sortBy_map (le : α → α → Bool) (le2 : γ → γ → Bool) (f : α → γ)
    (hc : ∀ x y, le2 (f x) (f y) = le x y) (l : List α) :
    sortBy le2 (l.map f) = (sortBy le l).map f := by
  induction l with
  | nil => rfl
  | cons a t ih =>
    simp only [List.map_cons, sortBy, ih, insertBy_map le le2 f hc]

/-! ## Counting through `dedup_by_with_count` -/

/-- On a run-sorted tail (every key at least `k cur`, tail sorted
ascending), looking a key up among the `(key, run length)` pairs produced
by `dedupGo` yields the total multiplicity of that key, with `n` credited
to the run of `cur`. -/
theorem lookup_dedupGo {α : Type} (k : α → Int) (i : Int) (l : List α) :
    ∀ (cur : α) (n : Nat), (∀ b ∈ l, k cur ≤ k b) →
      l.Pairwise (fun x y => k x ≤ k y) →
      ((dedupGo (fun x y => k x == k y) cur n l).map
          (fun p => (k p.2, p.1))).lookup i =
        if i = k cur then some (n + l.countP (fun x => k x == i))
        else if l.countP (fun x => k x == i) = 0 then none
        else some (l.countP (fun x => k x == i)) := by
  induction l with
  | nil =>
    intro cur n _ _
    by_cases h : i = k cur
    · simp [dedupGo, List.lookup, h]
    · simp [dedupGo, List.lookup, h, List.countP_nil, beq_false_of_ne h]
  | cons b t ih =>
    intro cur n hlo hpw
    rcases List.pairwise_cons.mp hpw with ⟨hbt, hpt⟩
    by_cases hcb : k cur = k b
    · have hbeq : (k cur == k b) = true := beq_iff_eq.mpr hcb
      have hlot : ∀ x ∈ t, k cur ≤ k x := fun x hx =>
        hlo x (List.mem_cons_of_mem b hx)
      rw [show dedupGo (fun x y => k x == k y) cur n (b :: t) =
            dedupGo (fun x y => k x == k y) cur (n + 1) t by
          simp [dedupGo, hbeq]]
      rw [ih cur (n + 1) hlot hpt]
      by_cases hic : i = k cur
      · subst hic
        have hbi : (k b == k cur) = true := beq_iff_eq.mpr hcb.symm
        rw [if_pos rfl, if_pos rfl, List.countP_cons, hbi]
        simp only [if_true]
        congr 1
        omega
      · have hbi : (k b == i) = false :=
          beq_false_of_ne (fun h => hic (h.symm.trans hcb.symm))
        rw [if_neg hic, if_neg hic, List.countP_cons, hbi]
        simp
    · have hbeq : (k cur == k b) = false := beq_false_of_ne hcb
      have hcur_lt : k cur < k b :=
        lt_of_le_of_ne (hlo b (List.mem_cons_self b t)) hcb
      rw [show dedupGo (fun x y => k x == k y) cur n (b :: t) =
            (n, cur) :: dedupGo (fun x y => k x == k y) b 1 t by
          simp [dedupGo, hbeq]]
      by_cases hic : i = k cur
      · subst hic
        have hzero : (b :: t).countP (fun x => k x == k cur) = 0 := by
          rw [List.countP_eq_zero]
          intro x hx
          have hx2 : k cur < k x := by
            rcases List.mem_cons.mp hx with rfl | hxt
            · exact hcur_lt
            · exact lt_of_lt_of_le hcur_lt (hbt x hxt)
          simp only [beq_iff_eq]
          intro hxi
          rw [hxi] at hx2
          exact lt_irrefl _ hx2
        rw [List.map_cons, List.lookup_cons, if_pos rfl, hzero]
        simp
      · have hine : (i == k cur) = false := beq_false_of_ne hic
        rw [List.map_cons, List.lookup_cons]
        simp only [hine]
        rw [ih b 1 hbt hpt, if_neg hic]
        by_cases hib : i = k b
        · have hbi : (k b == i) = true := beq_iff_eq.mpr hib.symm
          rw [if_pos hib, List.countP_cons, hbi]
          simp only [if_true]
          have hpos : ¬ t.countP (fun x => k x == i) + 1 = 0 := by omega
          rw [if_neg hpos]
          congr 1
          omega
        · have hbi : (k b == i) = false :=
            beq_false_of_ne (fun h => hib h.symm)
          rw [if_neg hib, List.countP_cons, hbi]
          simp

/-- The association list built in the search pipeline maps a sticker id to
the number of matching tag rows carrying that id (and has no entry exactly
when no matching row carries it). -/
theorem lookup_stickerIdCountPairs (db : Db) (q : String) (i : Int) :
    (stickerIdCountPairs db q).lookup i =
      if (matchingRows db q).countP (fun r => r.stickerId == i) = 0 then none
      else some ((matchingRows db q).countP (fun r => r.stickerId == i)) := by
  have hcnt : (sortedMatchingRows db q).countP (fun r => r.stickerId == i) =
      (matchingRows db q).countP (fun r => r.stickerId == i) :=
    List.Perm.countP_eq _ (sortBy_perm _ _)
  have hpw : (sortedMatchingRows db q).Pairwise
      (fun x y => x.stickerId ≤ y.stickerId) :=
    pairwise_sortBy_asc TaggedSticker.stickerId (matchingRows db q)
  rw [← hcnt]
  unfold stickerIdCountPairs
  cases hs : sortedMatchingRows db q with
  | nil => simp [dedupByWithCount]
  | cons a t =>
    rw [hs] at hpw
    rcases List.pairwise_cons.mp hpw with ⟨hat, hpt⟩
    have hmain := lookup_dedupGo TaggedSticker.stickerId i t a 1 hat hpt
    rw [show dedupByWithCount
          (fun x y : TaggedSticker => x.stickerId == y.stickerId) (a :: t) =
          dedupGo (fun x y => x.stickerId == y.stickerId) a 1 t from rfl]
    rw [hmain]
    by_cases hia : i = a.stickerId
    · have hai : (a.stickerId == i) = true := beq_iff_eq.mpr hia.symm
      rw [if_pos hia, List.countP_cons, hai]
      simp only [if_true]
      have hpos : ¬ t.countP (fun x => x.stickerId == i) + 1 = 0 := by omega
      rw [if_neg hpos]
      congr 1
      omega
    · have hai : (a.stickerId == i) = false :=
        beq_false_of_ne (fun h => hia h.symm)
      rw [if_neg hia, List.countP_cons, hai]
      simp

/-- The totalized HashMap lookup equals the per-item count of matching tag
rows. -/
theorem matchCountOf_eq_countP (db : Db) (q : String) (i : Int) :
    matchCountOf db q i =
      (matchingRows db q).countP (fun r => r.stickerId == i) := by
  unfold matchCountOf
  rw [lookup_stickerIdCountPairs]
  by_cases h : (matchingRows db q).countP (fun r => r.stickerId == i) = 0
  · rw [if_pos h, h]
    rfl
  · rw [if_neg h]
    rfl

/-- An association-list lookup on a key that occurs among the keys
succeeds. -/
theorem lookup_isSome_of_mem_keys {l : List (Int × Nat)} {i : Int}
    (h : i ∈ l.map Prod.fst) : (l.lookup i).isSome := by
  induction l with
  | nil => simp at h
  | cons p t ih =>
    rcases p with ⟨key, v⟩
    rw [List.lookup_cons]
    by_cases hik : i = key
    · simp [beq_iff_eq.mpr hik]
    · have hsplit : i = key ∨ ∃ x, (i, x) ∈ t := by simpa using h
      have hmem : i ∈ t.map Prod.fst := by
        rcases hsplit with h1 | ⟨x, hx⟩
        · exact absurd h1 hik
        · exact List.mem_map.mpr ⟨(i, x), hx, rfl⟩
      have := ih hmem
      simpa [beq_false_of_ne hik] using this

/-! ## Spec-side definition (for comparison with the match count of the code) -/

/-- Modelled from the spec: a given item has as aggregate match_count the
number of distinct query tokens for which at least one of its
TagAssociation rows matched.  This definition follows the words of the spec —
dedup the query tokens, then count those matched by at least one of the
tag rows of the item — and exists only to be compared with the
`matchCountOf` of the code. -/
def specMatchCount (db : Db) (q : String) (i : Int) : Nat :=
  ((queryTokens q).dedup.filter (fun t =>
    (db.tagged.filter (fun r => r.stickerId == i)).any
      (fun r => strContains r.tag t))).length

/-! ## Example databases for the claim instances -/

/-- One sticker with two tag rows whose texts both contain "cute". -/
def c1Db : Db :=
  { stickers := [{ id := 1, fileUniqueId := "u1", fileId := "f1",
                   setName := "s", popularity := 0 }],
    tagged := [{ id := 1, tag := "cute", stickerId := 1, taggerId := 1,
                 ts := 0 },
               { id := 2, tag := "cutecat", stickerId := 1, taggerId := 2,
                 ts := 0 }],
    users := [] }

/-- The ranking example of the spec: items A and B match both query tokens
("x" and "y"), item C matches one, with popularity 5, 10 and 100. -/
def c2Db : Db :=
  { stickers := [{ id := 1, fileUniqueId := "uA", fileId := "A",
                   setName := "s", popularity := 5 },
                 { id := 2, fileUniqueId := "uB", fileId := "B",
                   setName := "s", popularity := 10 },
                 { id := 3, fileUniqueId := "uC", fileId := "C",
                   setName := "s", popularity := 100 }],
    tagged := [{ id := 1, tag := "x", stickerId := 1, taggerId := 1, ts := 0 },
               { id := 2, tag := "y", stickerId := 1, taggerId := 1, ts := 0 },
               { id := 3, tag := "x", stickerId := 2, taggerId := 1, ts := 0 },
               { id := 4, tag := "y", stickerId := 2, taggerId := 1, ts := 0 },
               { id := 5, tag := "x", stickerId := 3, taggerId := 1, ts := 0 }],
    users := [] }

/-! ## Claim C1 -/

/-- C1, counterexample: with the single query token "cute" and one item
carrying two tag rows ("cute" and "cutecat") that both contain the token,
the aggregate match count of the code is 2 — the number of matching rows — while
the number of distinct query tokens matched, as the claim counts, is 1.  The claim is
false of the code. -/
theorem C1_counterexample :
    matchCountOf c1Db "cute" 1 = 2 ∧ specMatchCount c1Db "cute" 1 = 1 ∧
      matchCountOf c1Db "cute" 1 ≠ specMatchCount c1Db "cute" 1 :=
  ⟨by decide, by decide, by decide⟩

/-- C1, amended: for every query, the aggregate match count of a candidate item
equals the number of TagAssociation rows of that item whose tag text
contains at least one query token as a substring — each matching row counts
once, so an item matching one token via several rows counts once per row,
not once per token. -/
theorem C1_match_count_is_row_count (db : Db) (q : String) (i : Int) :
    matchCountOf db q i =
      (db.tagged.filter (rowMatches (queryTokens q))).countP
        (fun r => r.stickerId == i) :=
  matchCountOf_eq_countP db q i

/-! ## Claim C10 -/

/-- C10: the match-count map lookup used as the sort key never fails —
every `(sticker id, file id)` pair entering the final sort carries an id
that is a key of the match-count association list, because the second
query filtered on exactly the ids extracted from that list. -/
theorem C10_match_count_lookup_total (db : Db) (q : String)
    (p : Int × String) (hp : p ∈ stickerFileIdPairs db q) :
    ((stickerIdCountPairs db q).lookup p.1).isSome := by
  have hp2 : p ∈ (secondQueryStickers db q).map
      (fun s => (s.id, s.fileId)) := mem_sortBy.mp hp
  rcases List.mem_map.mp hp2 with ⟨s, hs, rfl⟩
  have hs2 : s ∈ db.stickers.filter
      (fun v => (stickerIds db q).contains v.id) := mem_sortBy.mp hs
  have hcont : (stickerIds db q).contains s.id = true :=
    (List.mem_filter.mp hs2).2
  have hmem : s.id ∈ stickerIds db q := List.elem_iff.mp hcont
  exact lookup_isSome_of_mem_keys hmem

/-- C10, witness: a concrete pair of the pipeline output whose id the
map resolves. -/
theorem C10_match_count_lookup_total_witness :
    ((2 : Int), "B") ∈ stickerFileIdPairs c2Db "x y" ∧
      ((stickerIdCountPairs c2Db "x y").lookup 2).isSome :=
  ⟨by decide, C10_match_count_lookup_total c2Db "x y" (2, "B") (by decide)⟩

/-! ## Claim C9 -/

/-- C9: under the primary-key invariant (pairwise-distinct sticker ids in
the sticker table), the emitted result sequence contains each item at most
once, even when the item matched several tokens or several tag rows. -/
theorem C9_results_nodup (db : Db) (q : String)
    (h : (db.stickers.map Sticker.id).Nodup) :
    ((searchResults db q).map Prod.fst).Nodup := by
  have h1 : ((db.stickers.filter
      (fun s => (stickerIds db q).contains s.id)).map Sticker.id).Nodup :=
    List.Nodup.sublist (List.Sublist.map _ (List.filter_sublist _)) h
  have h2 : ((secondQueryStickers db q).map Sticker.id).Nodup := by
    have hperm := (sortBy_perm (fun a b : Sticker =>
      decide (b.popularity ≤ a.popularity))
      (db.stickers.filter
        (fun s => (stickerIds db q).contains s.id))).map Sticker.id
    exact hperm.symm.nodup h1
  have h3 : ((stickerFileIdPairs db q).map Prod.fst).Nodup := by
    have hperm := (sortBy_perm (fun a b : Int × String =>
      decide (matchCountOf db q b.1 ≤ matchCountOf db q a.1))
      ((secondQueryStickers db q).map
        (fun s => (s.id, s.fileId)))).map Prod.fst
    refine hperm.symm.nodup ?_
    rw [List.map_map]
    exact h2
  have h4 : ((searchResults db q).map Prod.fst).Sublist
      ((stickerFileIdPairs db q).map Prod.fst) :=
    List.Sublist.map _ (List.take_sublist _ _)
  exact List.Nodup.sublist h4 h3

/-- C9, witness: a concrete store with distinct primary keys and the
resulting duplicate-free output. -/
theorem C9_results_nodup_witness :
    (c2Db.stickers.map Sticker.id).Nodup ∧
      ((searchResults c2Db "x y").map Prod.fst).Nodup :=
  ⟨by decide, C9_results_nodup c2Db "x y" (by decide)⟩

/-! ## Claim C2 -/

/-- C2: for every non-empty query, the handler answers with the projection
of the match-count-sorted sticker list, and that list — hence the emitted
sequence — is ordered primarily by match count descending and secondarily
by popularity descending (the second sort is stable, so within equal match
counts the popularity-descending order of the store survives). -/
theorem C2_ranking_order (db : Db) (q : String) (h : strTrim q ≠ "") :
    inlineQueryHandler db q =
        some (((rankedStickers db q).take QUERY_RESULT_MAX).map
          (fun s => (s.id, s.fileId))) ∧
      ((rankedStickers db q).take QUERY_RESULT_MAX).Pairwise
        (fun a b =>
          matchCountOf db q b.id < matchCountOf db q a.id ∨
            (matchCountOf db q a.id = matchCountOf db q b.id ∧
              b.popularity ≤ a.popularity)) := by
  constructor
  · unfold inlineQueryHandler
    rw [if_neg h]
    unfold searchResults stickerFileIdPairs rankedStickers
    rw [sortBy_map
        (fun a b : Sticker =>
          decide (matchCountOf db q b.id ≤ matchCountOf db q a.id))
        (fun a b : Int × String =>
          decide (matchCountOf db q b.1 ≤ matchCountOf db q a.1))
        (fun s => (s.id, s.fileId)) (fun x y => rfl), List.map_take]
  · have hpop : (secondQueryStickers db q).Pairwise
        (fun a b => b.popularity ≤ a.popularity) := by
      have hd := pairwise_sortBy_desc Sticker.popularity
        (fun _ _ => True)
        (db.stickers.filter (fun s => (stickerIds db q).contains s.id))
        (pairwise_true _)
      exact hd.imp (fun hab => by
        rcases hab with hlt | ⟨heq, _⟩
        · exact le_of_lt hlt
        · exact le_of_eq heq.symm)
    have hmc := pairwise_sortBy_desc
      (fun s : Sticker => matchCountOf db q s.id)
      (fun a b => b.popularity ≤ a.popularity)
      (secondQueryStickers db q) hpop
    exact List.Pairwise.sublist (List.take_sublist _ _) hmc

/-- C2, witness: the ranking example of the spec itself — A (2 matches,
popularity 5), B (2 matches, popularity 10), C (1 match, popularity 100) —
is emitted in the order [B, A, C]. -/
theorem C2_ranking_order_witness :
    strTrim "x y" ≠ "" ∧
      ((rankedStickers c2Db "x y").take QUERY_RESULT_MAX).Pairwise
        (fun a b =>
          matchCountOf c2Db "x y" b.id < matchCountOf c2Db "x y" a.id ∨
            (matchCountOf c2Db "x y" a.id = matchCountOf c2Db "x y" b.id ∧
              b.popularity ≤ a.popularity)) ∧
      inlineQueryHandler c2Db "x y" = some [(2, "B"), (1, "A"), (3, "C")] :=
  ⟨by decide, (C2_ranking_order c2Db "x y" (by decide)).2, by decide⟩

/-! ## Claim C3 -/

/-- A sticker record the fallback select can find. -/
def c3Sticker : Sticker :=
  { id := 7, fileUniqueId := "u7", fileId := "f7", setName := "s",
    popularity := 0 }

/-- C3, counterexample: when the insert fails with an error that is NOT a
uniqueness violation, the code still performs the fallback select and
returns the found id instead of propagating the insert error — `main.rs`
matches `Err(_)`, not a classified conflict.  The claim that any other insert
error propagates without the fallback is false of the code. -/
theorem C3_counterexample :
    resolveStickerId (Except.error InsertErr.other)
      (Except.ok (some c3Sticker)) = Except.ok 7 := rfl

/-- C3, amended: on ANY insert error (uniqueness violation or not) the
resolution falls back to the select by the external unique key: a found
row yields its id, an empty result fails with `NoSuchSticker` (ResolutionFailed in
the spec), and a store error of the fallback select itself
propagates. -/
theorem C3_resolution_fallback (insertRes : Except InsertErr Int)
    (lookupRes : Except DbErr (Option Sticker)) (e : InsertErr)
    (he : insertRes = Except.error e) :
    resolveStickerId insertRes lookupRes =
      match lookupRes with
      | Except.ok (some s) => Except.ok s.id
      | Except.ok none => Except.error ResolveErr.noSuchSticker
      | Except.error d => Except.error (ResolveErr.database d) := by
  subst he
  cases lookupRes with
  | error d => rfl
  | ok o =>
    cases o with
    | none => rfl
    | some s => rfl

/-- C3, witness: a uniqueness-violation insert with an empty fallback
select fails with `NoSuchSticker`. -/
theorem C3_resolution_fallback_witness :
    ((Except.error InsertErr.uniqueViolation : Except InsertErr Int) =
        Except.error InsertErr.uniqueViolation) ∧
      resolveStickerId (Except.error InsertErr.uniqueViolation)
          (Except.ok none) = Except.error ResolveErr.noSuchSticker :=
  ⟨rfl, C3_resolution_fallback _ _ InsertErr.uniqueViolation rfl⟩

/-! ## Claim C4 -/

/-- C4: an authorized untag against an indexed sticker deletes exactly the
tag rows matching `(sticker id, tag ∈ requested tokens, tagger = caller)`
and reports their count; rows of other taggers — even with the same tag on
the same sticker — and the other two tables are untouched. -/
theorem C4_untag_exact_rows (db : Db) (st : StickerMsg) (uid : Int)
    (text : String) (u : DbUser)
    (hu : db.users.find? (fun v => v.userId == uid) = some u)
    (hallow : u.allowed = true) (s : Sticker)
    (hs : db.stickers.find? (fun v => v.fileUniqueId == st.fileUniqueId) =
      some s) :
    (handleUntag db (some (some st)) (some uid) text).1 =
        UntagReply.untagSuccess (db.tagged.countP (fun r =>
          r.stickerId == s.id &&
            (splitWhitespace (strTrim text)).contains r.tag &&
            r.taggerId == u.id)) ∧
      (∀ r : TaggedSticker,
        r ∈ (handleUntag db (some (some st)) (some uid) text).2.tagged ↔
          r ∈ db.tagged ∧
            ¬(r.stickerId = s.id ∧
                r.tag ∈ splitWhitespace (strTrim text) ∧
                r.taggerId = u.id)) ∧
      (∀ r ∈ db.tagged, r.taggerId ≠ u.id →
        r ∈ (handleUntag db (some (some st)) (some uid) text).2.tagged) ∧
      (handleUntag db (some (some st)) (some uid) text).2.stickers =
        db.stickers ∧
      (handleUntag db (some (some st)) (some uid) text).2.users =
        db.users := by
  have hcalc : handleUntag db (some (some st)) (some uid) text =
      (UntagReply.untagSuccess (db.tagged.countP (fun r =>
          r.stickerId == s.id &&
            (splitWhitespace (strTrim text)).contains r.tag &&
            r.taggerId == u.id)),
       { db with tagged := db.tagged.filter (fun r =>
          !(r.stickerId == s.id &&
            (splitWhitespace (strTrim text)).contains r.tag &&
            r.taggerId == u.id)) }) := by
    unfold handleUntag
    dsimp only
    rw [hu, hs]
    simp [hallow]
  rw [hcalc]
  refine ⟨rfl, ?_, ?_, rfl, rfl⟩
  · intro r
    simp only [List.mem_filter, Bool.not_eq_true', Bool.and_eq_true,
      beq_iff_eq, List.contains, List.elem_iff]
    constructor
    · rintro ⟨hr, hcond⟩
      refine ⟨hr, ?_⟩
      rintro ⟨h1, h2, h3⟩
      rw [h1, h3] at hcond
      simp [h2] at hcond
    · rintro ⟨hr, hcond⟩
      refine ⟨hr, ?_⟩
      by_cases h1 : r.stickerId = s.id
      · by_cases h2 : r.tag ∈ splitWhitespace (strTrim text)
        · by_cases h3 : r.taggerId = u.id
          · exact absurd ⟨h1, h2, h3⟩ hcond
          · simp [h1, h2, h3]
        · simp [h1, h2]
      · simp [h1]
  · intro r hr hne
    simp only [List.mem_filter, Bool.not_eq_true', Bool.and_eq_true,
      beq_iff_eq]
    refine ⟨hr, ?_⟩
    simp [hne]

/-- Store for the C4 witness: two taggers put the same tag on the same
sticker. -/
def c4Db : Db :=
  { stickers := [{ id := 1, fileUniqueId := "u1", fileId := "f1",
                   setName := "s", popularity := 0 }],
    tagged := [{ id := 1, tag := "cute", stickerId := 1, taggerId := 1,
                 ts := 0 },
               { id := 2, tag := "cute", stickerId := 1, taggerId := 2,
                 ts := 0 }],
    users := [{ id := 1, userId := 100, username := "alice",
                allowed := true },
              { id := 2, userId := 200, username := "bob",
                allowed := true }] }

/-- The replied-to sticker used in the C4 witness. -/
def c4St : StickerMsg :=
  { fileId := "f1", fileUniqueId := "u1", setName := some "s" }

/-- The registry row of alice in the C4 witness. -/
def c4Alice : DbUser :=
  { id := 1, userId := 100, username := "alice", allowed := true }

/-- C4, witness: alice untagging "cute" removes exactly her own row; the
identical tag of bob on the same sticker survives. -/
theorem C4_untag_exact_rows_witness :
    c4Db.users.find? (fun v => v.userId == (100 : Int)) = some c4Alice ∧
      (handleUntag c4Db (some (some c4St)) (some 100) "cute").1 =
        UntagReply.untagSuccess 1 ∧
      ({ id := 2, tag := "cute", stickerId := 1, taggerId := 2, ts := 0 :
          TaggedSticker }) ∈
        (handleUntag c4Db (some (some c4St)) (some 100) "cute").2.tagged :=
  ⟨by decide,
   ((C4_untag_exact_rows c4Db c4St 100 "cute" c4Alice (by decide) rfl
        { id := 1, fileUniqueId := "u1", fileId := "f1", setName := "s",
          popularity := 0 } (by decide)).1).trans (by decide),
   (C4_untag_exact_rows c4Db c4St 100 "cute" c4Alice (by decide) rfl
        { id := 1, fileUniqueId := "u1", fileId := "f1", setName := "s",
          popularity := 0 } (by decide)).2.2.1 _ (by decide) (by decide)⟩

/-! ## Claim C5 -/

/-- C5: for a tag command replying to a sticker, the preconditions are
checked in order with the first failure winning — an unregistered caller,
or a registered but unapproved one, is rejected as not authorized
regardless of the sticker or the text; an authorized caller hits the
missing-sticker-set failure regardless of the text; only then an empty
token set fails with the no-tags reply — and each of these failures leaves
the store untouched (no Item, no TagAssociation row is created). -/
theorem C5_tag_precondition_order (db : Db) (st : StickerMsg) (uid : Int)
    (text : String) (now : Int) :
    (db.users.find? (fun v => v.userId == uid) = none →
        handleTag db (some (some st)) (some uid) text now =
          (TagReply.notAuthorized, db)) ∧
      (∀ u, db.users.find? (fun v => v.userId == uid) = some u →
        u.allowed = false →
        handleTag db (some (some st)) (some uid) text now =
          (TagReply.notAuthorized, db)) ∧
      (∀ u, db.users.find? (fun v => v.userId == uid) = some u →
        u.allowed = true → st.setName = none →
        handleTag db (some (some st)) (some uid) text now =
          (TagReply.noStickerSet, db)) ∧
      (∀ u sn, db.users.find? (fun v => v.userId == uid) = some u →
        u.allowed = true → st.setName = some sn →
        splitWhitespace (strTrim text) = [] →
        handleTag db (some (some st)) (some uid) text now =
          (TagReply.noTags, db)) := by
  refine ⟨?_, ?_, ?_, ?_⟩
  · intro hnone
    unfold handleTag
    dsimp only
    rw [hnone]
  · intro u hu hal
    unfold handleTag
    dsimp only
    rw [hu]
    simp [hal]
  · intro u hu hal hsn
    unfold handleTag
    dsimp only
    rw [hu]
    simp [hal, hsn]
  · intro u sn hu hal hsn htok
    unfold handleTag
    dsimp only
    rw [hu]
    simp [hal, hsn, htok]

/-- Store for the C5 witness: carol registered but was never approved. -/
def c5Db : Db :=
  { stickers := [], tagged := [],
    users := [{ id := 1, userId := 100, username := "carol",
                allowed := false }] }

/-- A sticker outside any sticker set, for the C5 witness. -/
def c5St : StickerMsg :=
  { fileId := "f", fileUniqueId := "u", setName := none }

/-- C5, witness: the registered-but-unapproved carol gets the
not-authorized reply even though the sticker also lacks a set and the text
has no tokens — authorization is checked first — and the store is
unchanged. -/
theorem C5_tag_precondition_order_witness :
    c5Db.users.find? (fun v => v.userId == (100 : Int)) =
        some { id := 1, userId := 100, username := "carol",
               allowed := false } ∧
      handleTag c5Db (some (some c5St)) (some 100) "" 0 =
        (TagReply.notAuthorized, c5Db) :=
  ⟨by decide,
   (C5_tag_precondition_order c5Db c5St 100 "" 0).2.1
     { id := 1, userId := 100, username := "carol", allowed := false }
     (by decide) rfl⟩

/-! ## Claim C6 -/

/-- Store for the C6 instance: alice is already registered under platform
user id 5. -/
def c6Db : Db :=
  { stickers := [], tagged := [],
    users := [{ id := 1, userId := 5, username := "alice",
                allowed := false }] }

/-- C6, counterexample: a second register call by the already-registered
platform id 5 does NOT succeed softly — the user-table insert hits the
uniqueness constraint on `user_id` and `handle_register_command`
propagates that store error with `?`, so the request fails (no reply is
sent).  Only the second half of the claim holds: the stored record is
unchanged. -/
theorem C6_counterexample :
    handleRegister c6Db (some (5, some "alice")) =
      (Except.error InsertErr.uniqueViolation, c6Db) := rfl

/-- C6, amended: a register call whose caller platform id is already in
the user table fails with the uniqueness-violation error of the store, which
propagates out of the handler (the request errors rather than being
reported softly); the user table — including the `allowed` flag of the
existing record — is unchanged. -/
theorem C6_duplicate_register_fails (db : Db) (uid : Int) (uname : String)
    (h : db.users.any (fun u => u.userId == uid) = true) :
    handleRegister db (some (uid, some uname)) =
      (Except.error InsertErr.uniqueViolation, db) := by
  unfold handleRegister
  simp [h]

/-- C6, witness: the duplicate register at a concrete store. -/
theorem C6_duplicate_register_fails_witness :
    c6Db.users.any (fun u => u.userId == (5 : Int)) = true ∧
      handleRegister c6Db (some (5, some "bob")) =
        (Except.error InsertErr.uniqueViolation, c6Db) :=
  ⟨by decide, C6_duplicate_register_fails c6Db 5 "bob" (by decide)⟩

/-! ## Claim C7 -/

/-- C7: under the primary-key invariant, a selection-feedback call whose
id resolves to a stored sticker rewrites the table with exactly the popularity of that
row incremented by one — every other row, every other field and the
other two tables (carried unchanged in the record update) stay as they
were; an id resolving to no sticker leaves the store untouched and yields
the logged no-op outcome, never an error. -/
theorem C7_selection_feedback (db : Db) (i : Int)
    (hnd : (db.stickers.map Sticker.id).Nodup) :
    (∀ s, db.stickers.find? (fun t => t.id == i) = some s →
        recordSelection db i =
          (ChosenOutcome.incremented,
           { db with stickers := db.stickers.map (fun t =>
              if t.id == i then { t with popularity := t.popularity + 1 }
              else t) })) ∧
      (db.stickers.find? (fun t => t.id == i) = none →
        recordSelection db i = (ChosenOutcome.notFoundLogged, db)) := by
  constructor
  · intro s hfind
    have hsmem : s ∈ db.stickers := List.mem_of_find?_eq_some hfind
    have hsid : (s.id == i) = true := by
      simpa using List.find?_some hfind
    unfold recordSelection
    rw [hfind]
    dsimp only
    have hmap : db.stickers.map (fun t =>
        if t.id == i then { t with popularity := s.popularity + 1 }
        else t) =
        db.stickers.map (fun t =>
          if t.id == i then { t with popularity := t.popularity + 1 }
          else t) := by
      apply List.map_congr_left
      intro t ht
      by_cases hti : t.id = i
      · have hteq : t = s :=
          List.inj_on_of_nodup_map hnd ht hsmem
            (hti.trans (beq_iff_eq.mp hsid).symm)
        simp [hti, hteq]
      · simp [hti]
    rw [hmap]
  · intro hf
    unfold recordSelection
    rw [hf]

/-- C7, witness: selecting item 1 of the ranking store bumps exactly its
popularity. -/
theorem C7_selection_feedback_witness :
    (c2Db.stickers.map Sticker.id).Nodup ∧
      recordSelection c2Db 1 =
        (ChosenOutcome.incremented,
         { c2Db with stickers := c2Db.stickers.map (fun t =>
            if t.id == (1 : Int) then
              { t with popularity := t.popularity + 1 }
            else t) }) :=
  ⟨by decide,
   (C7_selection_feedback c2Db 1 (by decide)).1
     { id := 1, fileUniqueId := "uA", fileId := "A", setName := "s",
       popularity := 5 } (by decide)⟩

/-! ## Claim C8 -/

/-- C8: when the supplied secret differs from the process-wide secret (by
exact string comparison), the reply is the fixed no-permission message and
the store is untouched, and the reply is identical for ANY two user
stores — in particular whether or not the target username is registered —
so nothing about the existence of the target is revealed before the secret
check passes. -/
theorem C8_secret_check_first (db1 db2 : Db) (storeSecret : String)
    (text : String) (sArg uArg : String)
    (hargs : splitWhitespace (strTrim text) = [sArg, uArg])
    (hne : sArg ≠ storeSecret) :
    handleAllow db1 storeSecret text = (AllowReply.noPerm, db1) ∧
      (handleAllow db1 storeSecret text).1 =
        (handleAllow db2 storeSecret text).1 := by
  have h1 : handleAllow db1 storeSecret text = (AllowReply.noPerm, db1) := by
    unfold handleAllow
    rw [hargs]
    simp [hne]
  have h2 : handleAllow db2 storeSecret text = (AllowReply.noPerm, db2) := by
    unfold handleAllow
    rw [hargs]
    simp [hne]
  exact ⟨h1, by rw [h1, h2]⟩

/-- A store where the target username is registered (for the C8 witness). -/
def c8Db1 : Db :=
  { stickers := [], tagged := [],
    users := [{ id := 1, userId := 9, username := "bob",
                allowed := false }] }

/-- A store where nobody is registered (for the C8 witness). -/
def c8Db2 : Db :=
  { stickers := [], tagged := [], users := [] }

/-- C8, witness: a wrong secret gets the same no-permission reply whether
bob is registered (`c8Db1`) or not (`c8Db2`), and changes nothing. -/
theorem C8_secret_check_first_witness :
    splitWhitespace (strTrim "wrong bob") = ["wrong", "bob"] ∧
      ("wrong" : String) ≠ "s3cret" ∧
      handleAllow c8Db1 "s3cret" "wrong bob" = (AllowReply.noPerm, c8Db1) ∧
      (handleAllow c8Db1 "s3cret" "wrong bob").1 =
        (handleAllow c8Db2 "s3cret" "wrong bob").1 :=
  ⟨by decide, by decide,
   (C8_secret_check_first c8Db1 c8Db2 "s3cret" "wrong bob" "wrong" "bob"
      (by decide) (by decide)).1,
   (C8_secret_check_first c8Db1 c8Db2 "s3cret" "wrong bob" "wrong" "bob"
      (by decide) (by decide)).2⟩
